import Mathlib

/-!
# godapp: a command-line client for an on-chain quiz contract

A shallow embedding of `godapp.go`.  The program is glue around external
collaborators (the Ethereum client, the generated `quiz` binding, `godotenv`,
the operating system), so every collaborator is a field of `Ext` and every
function of the program is a state-passing function on `World`.

Conventions:
* Go `string` is `String`, Go `[]byte` and `[32]byte` are `List Nat`;
* a made Go map is an association list, a variable of map type an `Option` of one,
  `none` being the nil map that reads as empty and panics when assigned into;
* Go `error` is the text that `%v` prints;
* `log.Fatalf` ends the process (`Res.fatal`), a nil dereference is `Res.panic`;
* everything the process prints, logs or asks of the contract binding is
  appended, in order, to `World.trace`.
-/

namespace Godapp

/-! ## Data model -/

/-- Go `error`, as the text that `%v` prints. -/
abbrev Err := String

/-- A made Go `map[string]string` as an association list; the first binding of a key is
the live one.  A variable of map type is an `Option Env`, `none` being the nil map. -/
abbrev Env := List (String × String)

/-- Map read `m[k]`: the value bound to `k`, the zero value `""` when `k` is absent or
the map is nil. -/
def mapGet (m : Option Env) (k : String) : String :=
  match m with
  | none => ""
  | some l => (l.lookup k).getD ""

/-- Map read `v, ok := m[k]`: the value bound to `k`, when there is one. -/
def mapLookup (m : Option Env) (k : String) : Option String :=
  match m with
  | none => none
  | some l => l.lookup k

/-- Map assignment `m[k] = v` on a made map. -/
def mapSet : Env → String → String → Env
  | [], k, v => [(k, v)]
  | (k0, v0) :: rest, k, v =>
    if k0 = k then (k, v) :: rest else (k0, v0) :: mapSet rest k v

/-- A `common.Address` value (20 bytes), kept as a number. -/
structure Address where
  val : Nat
deriving DecidableEq, Repr

/-- A `*ethclient.Client` returned by `ethclient.Dial`. -/
structure Client where
  id : Nat
deriving DecidableEq, Repr

/-- An open `*os.File`. -/
structure KeyFile where
  fd : Nat
deriving DecidableEq, Repr

/-- A `*types.Transaction`; the program only ever prints `tx.Hash().Hex()`. -/
structure Transaction where
  hashHex : String
deriving DecidableEq, Repr

/-- A `*quiz.Quiz` contract handle. -/
structure Quiz where
  id : Nat
deriving DecidableEq, Repr

/-- A `context.Context`; `0` is `context.Background()`. -/
abbrev Context := Nat

/-- The `bind.TransactOpts` signing authorization. -/
structure TransactOpts where
  From : Address
  Signer : Nat
deriving DecidableEq, Repr

/-- The `bind.CallOpts` read-call context. -/
structure CallOpts where
  From : Address
  Context : Context
deriving DecidableEq, Repr

/-- The `quiz.QuizSession` struct; `Contract` is a pointer, `none` is nil. -/
structure QuizSession where
  Contract : Option Quiz
  CallOpts : CallOpts
  TransactOpts : TransactOpts
deriving DecidableEq, Repr

/-- The result of one `Read` call on `os.Stdin`. -/
inductive ReadEv where
  | data (bytes : String)
  | fail (err : Err)
deriving DecidableEq, Repr

/-- What the process does that can be observed from outside, in order. -/
inductive Event where
  | log (line : String)
  | out (text : String)
  | deploy (auth : TransactOpts) (question : String) (digest : List Nat)
  | attach (addr : Address)
  | question (session : QuizSession)
  | sendAnswer (session : QuizSession) (digest : List Nat)
  | checkBoard (session : QuizSession)
deriving DecidableEq, Repr

/-- The external collaborators: `C` is the state of the chain as seen through the
gateway, `F` the state of the file at `envLoc`. -/
structure Ext (C F : Type) where
  /-- The function crypto.Keccak256. -/
  Keccak256 : List Nat → List Nat
  /-- The function godotenv.Read at envLoc: the map it returns, which it always makes,
  and its error. -/
  dotenvRead : F → Env × Option Err
  /-- The function godotenv.Write at envLoc: the file afterwards and its error. -/
  dotenvWrite : Env → F → F × Option Err
  /-- The function ethclient.Dial. -/
  Dial : String → Except Err Client
  /-- The function common.HexToAddress. -/
  HexToAddress : String → Address
  /-- The hexadecimal digits that Address.Hex prints after the leading 0x. -/
  hexDigits : Address → String
  /-- The method client.BalanceAt; none is a nil balance. -/
  BalanceAt : C → Client → Address → Option Nat
  /-- The function os.Open. -/
  osOpen : String → Except Err KeyFile
  /-- The function bind.NewTransactor: the pointer it returns (none is nil) and its error. -/
  NewTransactor : Option KeyFile → String → Option TransactOpts × Option Err
  /-- The function quiz.DeployQuiz. -/
  DeployQuiz : C → TransactOpts → Client → String → List Nat →
    Except Err (Address × Transaction × Quiz) × C
  /-- The function quiz.NewQuiz. -/
  NewQuiz : Address → Client → Except Err Quiz
  /-- The method session.Question. -/
  Question : C → QuizSession → Except Err String × C
  /-- The method session.SendAnswer. -/
  SendAnswer : C → QuizSession → List Nat → Except Err Transaction × C
  /-- The method session.CheckBoard. -/
  CheckBoard : C → QuizSession → Except Err Bool × C

/-- The state of the process and of its surroundings. -/
structure World (C F : Type) where
  /-- The global `myenv` (line 19); `none` is the nil map it holds until `loadEnv`
  first assigns it. -/
  myenv : Option Env
  /-- The file at `envLoc`. -/
  envFile : F
  /-- The chain behind the gateway. -/
  chain : C
  /-- The results of the `Read` calls on standard input still to come; after the
  last one every `Read` reports `EOF`. -/
  stdin : List ReadEv
  /-- Everything observed so far. -/
  trace : List Event

/-- How a function of the program ends. -/
inductive Res (σ α : Type) where
  | ok (a : α) (w : σ)
  | fatal (w : σ)
  | panic (w : σ)

/-- Sequencing: a fatal exit or a panic ends the process. -/
def Res.andThen {σ α β : Type} (r : Res σ α) (f : α → σ → Res σ β) : Res σ β :=
  match r with
  | .ok a w => f a w
  | .fatal w => .fatal w
  | .panic w => .panic w

/-- The world in which the function ended. -/
def Res.world {σ α : Type} : Res σ α → σ
  | .ok _ w => w
  | .fatal w => w
  | .panic w => w

/-- Whether `main` has returned or its loop is still going. -/
inductive Ctl where
  | next
  | done
deriving DecidableEq, Repr

variable {C F : Type}

/-- Append one event to the trace. -/
def World.emit (w : World C F) (e : Event) : World C F :=
  { w with trace := w.trace ++ [e] }

/-! ## The program -/

/-- The constant `envLoc`. -/
def envLoc : String := ".env"

/-- The constant `ErrTransactionWait`, the confirmation-wait hint. -/
def ErrTransactionWait : String :=
  "if you've just started the application, wait a while for the network to confirm your transaction."

/-- Go `[]byte(s)`. -/
def goBytes (s : String) : List Nat :=
  s.toUTF8.data.toList.map UInt8.toNat

/-- Go `copy(output[:], src)` into a zeroed `[32]byte`. -/
def copy32 (src : List Nat) : List Nat :=
  src.take 32 ++ List.replicate (32 - src.length) 0

/-- Go `address.Hex()`. -/
def addrHex (ext : Ext C F) (a : Address) : String :=
  "0x" ++ ext.hexDigits a

/-- The function `loadEnv` (lines 23 to 31): `myenv` becomes whatever `godotenv.Read`
returned, also when it reported an error, which is logged. -/
def loadEnv (ext : Ext C F) (w : World C F) : World C F :=
  let r := ext.dotenvRead w.envFile
  let w1 := { w with myenv := some r.1 }
  match r.2 with
  | some err => w1.emit (.log ("could not load env from " ++ envLoc ++ ": " ++ err))
  | none => w1

/-- The function `stringToKeccak256` (lines 158 to 163). -/
def stringToKeccak256 (ext : Ext C F) (s : String) : List Nat :=
  copy32 (ext.Keccak256 (goBytes s))

/-- The function `updateEnvFile` (lines 165 to 172): set the key in `myenv`, which
panics when `myenv` is still the nil map, write the whole map, log a write error. -/
def updateEnvFile (ext : Ext C F) (k val : String) (w : World C F) : Res (World C F) Unit :=
  match w.myenv with
  | none => .panic w
  | some m0 =>
    let m := mapSet m0 k val
    let r := ext.dotenvWrite m w.envFile
    let w1 := { w with myenv := some m, envFile := r.1 }
    match r.2 with
    | some err => .ok () (w1.emit (.log ("failed to update " ++ envLoc ++ ": " ++ err)))
    | none => .ok () w1

/-- The function `NewSession` (lines 95 to 122).  Both errors are only logged; the
return statement then reads `*auth` and `auth.From`, which panics on a nil `auth`.
The deferred `keystore.Close()` has no effect that is observed. -/
def NewSession (ext : Ext C F) (ctx : Context) (w : World C F) :
    Res (World C F) QuizSession :=
  let w1 := loadEnv ext w
  let opened := ext.osOpen (mapGet w1.myenv "KEYSTORE")
  let keystore : Option KeyFile :=
    match opened with
    | .ok f => some f
    | .error _ => none
  let w2 :=
    match opened with
    | .ok _ => w1
    | .error err =>
      w1.emit (.log ("could not load keystore from location "
        ++ mapGet w1.myenv "KEYSTORE" ++ ": " ++ err))
  let keystorepass := mapGet w2.myenv "KEYSTOREPASS"
  let r := ext.NewTransactor keystore keystorepass
  let w3 :=
    match r.2 with
    | some err => w2.emit (.log err)
    | none => w2
  match r.1 with
  | none => .panic w3
  | some auth =>
    .ok { Contract := none
          TransactOpts := auth
          CallOpts := { From := auth.From, Context := ctx } } w3

/-- The function `NewContract` (lines 124 to 138). -/
def NewContract (ext : Ext C F) (session : QuizSession) (client : Client)
    (question answer : String) (w : World C F) : Res (World C F) QuizSession :=
  let w1 := loadEnv ext w
  let digest := stringToKeccak256 ext answer
  let w2 := w1.emit (.deploy session.TransactOpts question digest)
  let r := ext.DeployQuiz w2.chain session.TransactOpts client question digest
  let w3 := { w2 with chain := r.2 }
  match r.1 with
  | .error err => .fatal (w3.emit (.log ("could not deploy contract: " ++ err)))
  | .ok (contractAddress, tx, inst) =>
    let w4 := w3.emit
      (.out ("Contract deployed! Wait for tx " ++ tx.hashHex ++ " to be confirmed.\n"))
    (updateEnvFile ext "CONTRACTADDR" (addrHex ext contractAddress) w4).andThen
      fun _ w5 => .ok { session with Contract := some inst } w5

/-- The function `LoadContract` (lines 140 to 152).  `log.Fatalf` logs and exits, so
the `log.Println(ErrTransactionWait)` that follows it in the source is never run. -/
def LoadContract (ext : Ext C F) (session : QuizSession) (client : Client)
    (w : World C F) : Res (World C F) QuizSession :=
  let w1 := loadEnv ext w
  let addr := ext.HexToAddress (mapGet w1.myenv "CONTRACTADDR")
  let w2 := w1.emit (.attach addr)
  match ext.NewQuiz addr client with
  | .error err => .fatal (w2.emit (.log ("could not load contract: " ++ err)))
  | .ok inst => .ok { session with Contract := some inst } w2

/-- The function `readQuestion` (lines 181 to 191). -/
def readQuestion (ext : Ext C F) (session : QuizSession) (w : World C F) : World C F :=
  let w1 := w.emit (.question session)
  let r := ext.Question w1.chain session
  let w2 := { w1 with chain := r.2 }
  match r.1 with
  | .error err =>
    (w2.emit (.log ("could not read question from contract: " ++ err))).emit
      (.log ErrTransactionWait)
  | .ok qn => w2.emit (.out ("Question: " ++ qn ++ "\n"))

/-- The function `sendAnswer` (lines 193 to 203). -/
def sendAnswer (ext : Ext C F) (session : QuizSession) (ans : String) (w : World C F) :
    World C F :=
  let digest := stringToKeccak256 ext ans
  let w1 := w.emit (.sendAnswer session digest)
  let r := ext.SendAnswer w1.chain session digest
  let w2 := { w1 with chain := r.2 }
  match r.1 with
  | .error err => w2.emit (.log ("could not send answer to contract: " ++ err))
  | .ok tx =>
    w2.emit (.out ("Answer sent! Please wait for tx " ++ tx.hashHex ++ " to be confirmed.\n"))

/-- The function `checkCorrect` (lines 205 to 216). -/
def checkCorrect (ext : Ext C F) (session : QuizSession) (w : World C F) : World C F :=
  let w1 := w.emit (.checkBoard session)
  let r := ext.CheckBoard w1.chain session
  let w2 := { w1 with chain := r.2 }
  match r.1 with
  | .error err =>
    (w2.emit (.log ("could not check leaderboard: " ++ err))).emit (.log ErrTransactionWait)
  | .ok win => w2.emit (.out ("Were you correct?: " ++ toString win ++ "\n"))

/-- The part of `buf` up to and including the first `delim`, when there is one. -/
def upToDelim (delim : Char) : List Char → Option (List Char)
  | [] => none
  | c :: cs => if c = delim then some [c] else (upToDelim delim cs).map (c :: ·)

/-- The method `ReadString(delim)` of a fresh `bufio.Reader` on standard input: `Read`
results are collected in `acc` until one holds `delim`.  What that `Read` returned after
the delimiter stays in the reader's buffer, and the reader is dropped by the caller.
A `Read` of zero bytes is `EOF`.  Returns the string, the error and the `Read` results
left on standard input. -/
def ReadString (delim : Char) : List ReadEv → List Char → (String × Option Err) × List ReadEv
  | [], acc => ((String.mk acc, some "EOF"), [])
  | .fail err :: rest, acc => ((String.mk acc, some err), rest)
  | .data bytes :: rest, acc =>
    if bytes.data = [] then ((String.mk acc, some "EOF"), rest)
    else
      match upToDelim delim bytes.data with
      | some line => ((String.mk (acc ++ line), none), rest)
      | none => ReadString delim rest (acc ++ bytes.data)

/-- Go `strings.TrimSuffix`. -/
def TrimSuffix (s suffix : String) : String :=
  if suffix.data.isSuffixOf s.data then
    String.mk (s.data.take (s.data.length - suffix.data.length))
  else s

/-- The function `readStringStdin` (lines 222 to 233): a fresh `bufio.Reader` for every
call; on an error the bytes read so far are dropped and `""` is returned. -/
def readStringStdin (w : World C F) : String × World C F :=
  let r := ReadString '\n' w.stdin []
  let w1 := { w with stdin := r.2 }
  match r.1.2 with
  | some err => ("", w1.emit (.log ("invalid option: " ++ err)))
  | none => (TrimSuffix r.1.1 "\n", w1)

/-- The menu that `main` prints at the top of every pass. -/
def menuText : String :=
  "Pick an option:\n" ++ "" ++
    "1. Show question.\n" ++
    "2. Send answer.\n" ++
    "3. Check if you answered correctly.\n" ++
    "4. Exit.\n"

/-- One pass through the body of the `for` loop of `main`. -/
def menuStep (ext : Ext C F) (session : QuizSession) (w : World C F) : Ctl × World C F :=
  let w1 := w.emit (.out menuText)
  let r := readStringStdin w1
  if r.1 = "1" then (.next, readQuestion ext session r.2)
  else if r.1 = "2" then
    let w2 := r.2.emit (.out "Type in your answer\n")
    let a := readStringStdin w2
    (.next, sendAnswer ext session a.1 a.2)
  else if r.1 = "3" then (.next, checkCorrect ext session r.2)
  else if r.1 = "4" then (.done, r.2.emit (.out "Bye!\n"))
  else (.next, r.2.emit (.out "Invalid option. Please try again.\n"))

/-- The `for` loop of `main`, cut off after `fuel` passes (`Ctl.next`: still looping). -/
def mainLoop (ext : Ext C F) (session : QuizSession) : Nat → World C F → Ctl × World C F
  | 0, w => (.next, w)
  | fuel + 1, w =>
    match menuStep ext session w with
    | (.done, w1) => (.done, w1)
    | (.next, w1) => mainLoop ext session fuel w1

/-- Lines 52 to 60 of `main`: deploy when no address is configured, then load when one is. -/
def mainLifecycle (ext : Ext C F) (session : QuizSession) (client : Client)
    (w : World C F) : Res (World C F) QuizSession :=
  let afterDeploy : Res (World C F) QuizSession :=
    if mapGet w.myenv "CONTRACTADDR" = "" then
      NewContract ext session client (mapGet w.myenv "QUESTION") (mapGet w.myenv "ANSWER") w
    else .ok session w
  afterDeploy.andThen fun s w1 =>
    if mapGet w1.myenv "CONTRACTADDR" ≠ "" then LoadContract ext s client w1
    else .ok s w1

/-- The function `main` (lines 33 to 93), its loop cut off after `fuel` passes. -/
def main (ext : Ext C F) (fuel : Nat) (w : World C F) : Res (World C F) Ctl :=
  let w1 := loadEnv ext w
  match ext.Dial (mapGet w1.myenv "GATEWAY") with
  | .error err => .fatal (w1.emit (.log ("could not connect to Ethereum gateway: " ++ err)))
  | .ok client =>
    let accountAddress := ext.HexToAddress "0xC64e0bEe8f3019bDe19C29678148a978Ab52F98e"
    let w2 := w1.emit (.out (addrHex ext accountAddress ++ "\n"))
    let balance :=
      match ext.BalanceAt w2.chain client accountAddress with
      | some n => toString n
      | none => "<nil>"
    let w3 := w2.emit (.out ("Balance: " ++ balance ++ "\n"))
    ((NewSession ext 0 w3).andThen fun s w4 => mainLifecycle ext s client w4).andThen
      fun s w5 =>
        let r := mainLoop ext s fuel w5
        .ok r.1 r.2

/-! ## Observations on traces -/

/-- Whether an event is a call into the `quiz` binding. -/
def Event.isCall : Event → Bool
  | .deploy _ _ _ => true
  | .attach _ => true
  | .question _ => true
  | .sendAnswer _ _ => true
  | .checkBoard _ => true
  | .log _ => false
  | .out _ => false

/-- The calls into the `quiz` binding recorded in a trace, in order. -/
def calls (t : List Event) : List Event :=
  t.filter Event.isCall

/-- Whether an event is a `quiz.DeployQuiz` call, which only `NewContract` makes. -/
def Event.isDeploy : Event → Bool
  | .deploy _ _ _ => true
  | _ => false

/-- Whether an event is a `quiz.NewQuiz` call, which only `LoadContract` makes. -/
def Event.isAttach : Event → Bool
  | .attach _ => true
  | _ => false

/-- How many times `NewContract` has deployed. -/
def deployRuns (t : List Event) : Nat :=
  (t.filter Event.isDeploy).length

/-- How many times `LoadContract` has attached. -/
def loadRuns (t : List Event) : Nat :=
  (t.filter Event.isAttach).length

/-- No `Read` still to come delivers a newline. -/
def noNewline (evs : List ReadEv) : Prop :=
  ∀ s, ReadEv.data s ∈ evs → '\n' ∉ s.data

/-- The menu is printed and the choice is read: the `switch readStringStdin()` of `main`. -/
def choiceRead (w : World C F) : String × World C F :=
  readStringStdin (w.emit (.out menuText))

/-- After choice 2 the prompt is printed and the answer is read. -/
def answerRead (w : World C F) : String × World C F :=
  readStringStdin ((choiceRead w).2.emit (.out "Type in your answer\n"))

/-! ## A small concrete environment

The chain is a counter of accepted transactions and answers reads only once a
transaction went through; the environment file holds a map, or is missing. -/

/-- Collaborators of the small concrete environment. -/
def demoExt : Ext Nat (Option Env) where
  Keccak256 := fun bs => List.replicate 32 (bs.length % 256)
  dotenvRead := fun f =>
    match f with
    | some m => (m, none)
    | none => ([], some "open .env: no such file or directory")
  dotenvWrite := fun m _ => (some m, none)
  Dial := fun url => if url = "" then .error "dial: no endpoint" else .ok ⟨1⟩
  HexToAddress := fun s => ⟨s.length⟩
  hexDigits := fun a => if a.val = 0 then "00" else "2A"
  BalanceAt := fun _ _ _ => some 0
  osOpen := fun path =>
    if path = "key.json" then .ok ⟨3⟩ else .error "open: no such file or directory"
  NewTransactor := fun f _ =>
    match f with
    | some _ => (some ⟨⟨7⟩, 1⟩, none)
    | none => (none, some "invalid argument")
  DeployQuiz := fun c _ _ q _ =>
    if q = "" then (.error "empty question", c) else (.ok (⟨42⟩, ⟨"0xabc"⟩, ⟨1⟩), c + 1)
  NewQuiz := fun a _ =>
    if a.val < 4 then .error "no contract code at given address" else .ok ⟨a.val⟩
  Question := fun c _ => if c = 0 then (.error "no contract code", c) else (.ok "2+2?", c)
  SendAnswer := fun c _ _ =>
    if c = 0 then (.error "insufficient funds", c) else (.ok ⟨"0xdef"⟩, c + 1)
  CheckBoard := fun c _ => if c = 0 then (.error "no contract code", c) else (.ok true, c)

/-- The environment file of the spec's deploy scenario. -/
def demoEnv : Env :=
  [("GATEWAY", "http://localhost:8545"), ("KEYSTORE", "key.json"), ("KEYSTOREPASS", "pw"),
   ("CONTRACTADDR", ""), ("QUESTION", "2+2?"), ("ANSWER", "4")]

/-- A session with a contract attached. -/
def demoSession : QuizSession :=
  { Contract := some ⟨1⟩, CallOpts := { From := ⟨7⟩, Context := 0 }, TransactOpts := ⟨⟨7⟩, 1⟩ }

/-- A fresh start: `myenv` still nil, no contract address configured in the file. -/
def demoWorld : World Nat (Option Env) :=
  { myenv := none, envFile := some demoEnv, chain := 0, stdin := [], trace := [] }

/-- The same start once `loadEnv` has run, as `main` has it from its first line on. -/
def demoLoaded : World Nat (Option Env) :=
  { demoWorld with myenv := some demoEnv }

/-- A later start, with the address of a deployed contract in the file and loaded. -/
def demoDeployed : World Nat (Option Env) :=
  { demoWorld with
    myenv := some (mapSet demoEnv "CONTRACTADDR" "0x2A")
    envFile := some (mapSet demoEnv "CONTRACTADDR" "0x2A") }

/-! ## Facts about maps, configuration and the contract lifecycle -/

theorem lookup_mapSet_self (m : Env) (k v : String) :
    (mapSet m k v).lookup k = some v := by
  induction m with
  | nil => simp [mapSet, List.lookup]
  | cons p rest ih =>
    obtain ⟨k0, v0⟩ := p
    by_cases h : k0 = k
    · simp [mapSet, h, List.lookup]
    · have h2 : (k == k0) = false := by
        simpa using fun e => h e.symm
      simp [mapSet, h, List.lookup, h2, ih]

theorem lookup_mapSet_other (m : Env) (k v k1 : String) (hne : k1 ≠ k) :
    (mapSet m k v).lookup k1 = m.lookup k1 := by
  induction m with
  | nil =>
    have h2 : (k1 == k) = false := by simpa using hne
    simp [mapSet, List.lookup, h2]
  | cons p rest ih =>
    obtain ⟨k0, v0⟩ := p
    by_cases h : k0 = k
    · subst h
      have h2 : (k1 == k0) = false := by simpa using hne
      simp [mapSet, List.lookup, h2]
    · by_cases h3 : k1 = k0
      · subst h3
        simp [mapSet, h, List.lookup]
      · have h4 : (k1 == k0) = false := by simpa using h3
        simp [mapSet, h, List.lookup, h4, ih]

theorem mapGet_mapSet_self (m : Env) (k v : String) :
    mapGet (some (mapSet m k v)) k = v := by
  simp only [mapGet]
  rw [lookup_mapSet_self]
  rfl

theorem world_andThen_ok {σ α β : Type} (r : Res σ α) (b : β) :
    (r.andThen fun _ w => .ok b w).world = r.world := by
  cases r <;> rfl

theorem emit_trace (w : World C F) (e : Event) : (w.emit e).trace = w.trace ++ [e] := rfl

theorem emit_chain (w : World C F) (e : Event) : (w.emit e).chain = w.chain := rfl

theorem emit_myenv (w : World C F) (e : Event) : (w.emit e).myenv = w.myenv := rfl

theorem emit_envFile (w : World C F) (e : Event) : (w.emit e).envFile = w.envFile := rfl

theorem emit_stdin (w : World C F) (e : Event) : (w.emit e).stdin = w.stdin := rfl

theorem loadEnv_myenv (ext : Ext C F) (w : World C F) :
    (loadEnv ext w).myenv = some (ext.dotenvRead w.envFile).1 := by
  unfold loadEnv
  dsimp only
  split <;> rfl

theorem loadEnv_envFile (ext : Ext C F) (w : World C F) :
    (loadEnv ext w).envFile = w.envFile := by
  unfold loadEnv
  dsimp only
  split <;> rfl

theorem loadEnv_chain (ext : Ext C F) (w : World C F) :
    (loadEnv ext w).chain = w.chain := by
  unfold loadEnv
  dsimp only
  split <;> rfl

theorem loadEnv_stdin (ext : Ext C F) (w : World C F) :
    (loadEnv ext w).stdin = w.stdin := by
  unfold loadEnv
  dsimp only
  split <;> rfl

theorem loadEnv_trace (ext : Ext C F) (w : World C F) :
    (loadEnv ext w).trace = w.trace ∨
    ∃ err, (loadEnv ext w).trace = w.trace ++ [.log ("could not load env from " ++ err)] := by
  unfold loadEnv
  dsimp only
  split
  · right
    rename_i err _
    exact ⟨envLoc ++ ": " ++ err, by simp [World.emit, String.append_assoc]⟩
  · left; rfl

/-- What `updateEnvFile` does on a made map. -/
theorem updateEnvFile_made (ext : Ext C F) (k v : String) (w : World C F) (m : Env)
    (h : w.myenv = some m) :
    ∃ w1, updateEnvFile ext k v w = .ok () w1 ∧
      w1.myenv = some (mapSet m k v) ∧
      w1.envFile = (ext.dotenvWrite (mapSet m k v) w.envFile).1 ∧
      w1.chain = w.chain ∧
      (∀ e, e ∈ w.trace → e ∈ w1.trace) ∧
      ((ext.dotenvWrite (mapSet m k v) w.envFile).2 = none → w1.trace = w.trace) := by
  unfold updateEnvFile
  rw [h]
  dsimp only
  split
  · rename_i err herr
    refine ⟨_, rfl, rfl, rfl, rfl, ?_, ?_⟩
    · intro e he
      simp [emit_trace, he]
    · intro h0
      rw [h0] at herr
      cases herr
  · exact ⟨_, rfl, rfl, rfl, rfl, fun _ he => he, fun _ => rfl⟩

/-- A log line that starts with the letter c is not the confirmation-wait hint. -/
theorem ne_hint_of_head (p x : String) (hp : p.data.head? = some 'c') :
    p ++ x ≠ ErrTransactionWait := by
  intro h
  have h2 := congrArg (fun s => s.data.head?) h
  cases hpd : p.data with
  | nil => simp [hpd] at hp
  | cons c cs =>
    simp [hpd] at hp
    simp [ErrTransactionWait, hpd, hp] at h2

/-- The hint is logged as often after `loadEnv` as before. -/
theorem loadEnv_hints (ext : Ext C F) (w : World C F) :
    (loadEnv ext w).trace.count (.log ErrTransactionWait)
      = w.trace.count (.log ErrTransactionWait) := by
  rcases loadEnv_trace ext w with h | ⟨err, h⟩
  · rw [h]
  · rw [h, List.count_append]
    have hne : "could not load env from " ++ err ≠ ErrTransactionWait :=
      ne_hint_of_head _ _ rfl
    simp [List.count_cons, hne]

theorem addrHex_ne_empty (ext : Ext C F) (a : Address) : addrHex ext a ≠ "" := by
  simp [addrHex, String.ext_iff]

theorem copy32_length (src : List Nat) : (copy32 src).length = 32 := by
  simp only [copy32, List.length_append, List.length_take, List.length_replicate]
  omega

theorem calls_append (t u : List Event) : calls (t ++ u) = calls t ++ calls u := by
  simp [calls]

theorem loadEnv_filter (ext : Ext C F) (w : World C F) (p : Event → Bool)
    (hp : ∀ l, p (.log l) = false) :
    (loadEnv ext w).trace.filter p = w.trace.filter p := by
  rcases loadEnv_trace ext w with h | ⟨err, h⟩
  · rw [h]
  · rw [h]
    simp [hp]

theorem updateEnvFile_filter (ext : Ext C F) (k v : String) (w : World C F) (p : Event → Bool)
    (hp : ∀ l, p (.log l) = false) :
    (updateEnvFile ext k v w).world.trace.filter p = w.trace.filter p := by
  unfold updateEnvFile
  split
  · rfl
  · dsimp only
    split
    · simp [Res.world, emit_trace, hp]
    · rfl

/-- What `NewContract` adds to the trace, seen through a filter that drops output. -/
theorem NewContract_filter (ext : Ext C F) (session : QuizSession) (client : Client)
    (question answer : String) (w : World C F) (p : Event → Bool)
    (hlog : ∀ l, p (.log l) = false) (hout : ∀ l, p (.out l) = false) :
    (NewContract ext session client question answer w).world.trace.filter p =
      w.trace.filter p ++
        [Event.deploy session.TransactOpts question (stringToKeccak256 ext answer)].filter p := by
  unfold NewContract
  dsimp only
  split
  · simp [Res.world, emit_trace, hlog, loadEnv_filter ext w p hlog, List.filter_cons]
  · rw [world_andThen_ok, updateEnvFile_filter _ _ _ _ p hlog]
    simp [emit_trace, hout, loadEnv_filter ext w p hlog, List.filter_cons]

/-- What `LoadContract` adds to the trace, seen through a filter that drops output. -/
theorem LoadContract_filter (ext : Ext C F) (session : QuizSession) (client : Client)
    (w : World C F) (p : Event → Bool) (hlog : ∀ l, p (.log l) = false) :
    (LoadContract ext session client w).world.trace.filter p =
      w.trace.filter p ++
        [Event.attach (ext.HexToAddress
          (mapGet (some (ext.dotenvRead w.envFile).1) "CONTRACTADDR"))].filter p := by
  unfold LoadContract
  dsimp only
  split
  · simp [Res.world, emit_trace, hlog, loadEnv_filter ext w p hlog, loadEnv_myenv,
      List.filter_cons]
  · simp [Res.world, emit_trace, loadEnv_filter ext w p hlog, loadEnv_myenv]

theorem NewContract_ok (ext : Ext C F) (session : QuizSession) (client : Client)
    (question answer : String) (w : World C F) (addr : Address) (tx : Transaction)
    (inst : Quiz) (c1 : C)
    (hdeploy : ext.DeployQuiz w.chain session.TransactOpts client question
      (stringToKeccak256 ext answer) = (.ok (addr, tx, inst), c1)) :
    ∃ w1, NewContract ext session client question answer w =
        .ok { session with Contract := some inst } w1 ∧
      w1.myenv =
        some (mapSet (ext.dotenvRead w.envFile).1 "CONTRACTADDR" (addrHex ext addr)) ∧
      w1.envFile = (ext.dotenvWrite
        (mapSet (ext.dotenvRead w.envFile).1 "CONTRACTADDR" (addrHex ext addr)) w.envFile).1 ∧
      Event.out ("Contract deployed! Wait for tx " ++ tx.hashHex ++ " to be confirmed.\n")
        ∈ w1.trace := by
  have hrun : NewContract ext session client question answer w =
      (updateEnvFile ext "CONTRACTADDR" (addrHex ext addr)
          (({ (loadEnv ext w).emit
                (.deploy session.TransactOpts question (stringToKeccak256 ext answer)) with
              chain := c1 } : World C F).emit
            (.out ("Contract deployed! Wait for tx " ++ tx.hashHex
              ++ " to be confirmed.\n")))).andThen
        fun _ w5 => .ok { session with Contract := some inst } w5 := by
    unfold NewContract
    dsimp only
    rw [emit_chain, loadEnv_chain, hdeploy]
  obtain ⟨w1, hupd, hmy, hfile, _, htrace, _⟩ :=
    updateEnvFile_made ext "CONTRACTADDR" (addrHex ext addr)
      (({ (loadEnv ext w).emit
            (.deploy session.TransactOpts question (stringToKeccak256 ext answer)) with
          chain := c1 } : World C F).emit
        (.out ("Contract deployed! Wait for tx " ++ tx.hashHex ++ " to be confirmed.\n")))
      (ext.dotenvRead w.envFile).1 (by simp only [emit_myenv, loadEnv_myenv])
  refine ⟨w1, ?_, hmy, ?_, ?_⟩
  · rw [hrun, hupd]
    rfl
  · rw [hfile]
    simp only [emit_envFile, loadEnv_envFile]
  · exact htrace _ (by simp [emit_trace])

theorem NewContract_fail (ext : Ext C F) (session : QuizSession) (client : Client)
    (question answer : String) (w : World C F) (err : Err) (c1 : C)
    (hdeploy : ext.DeployQuiz w.chain session.TransactOpts client question
      (stringToKeccak256 ext answer) = (.error err, c1)) :
    ∃ w1, NewContract ext session client question answer w = .fatal w1 := by
  unfold NewContract
  dsimp only
  rw [emit_chain, loadEnv_chain, hdeploy]
  exact ⟨_, rfl⟩

/-! ## Facts about reading standard input -/

theorem upToDelim_eq_none (d : Char) (l : List Char) (h : d ∉ l) : upToDelim d l = none := by
  induction l with
  | nil => rfl
  | cons c cs ih =>
    simp only [List.mem_cons, not_or] at h
    have hc : ¬ c = d := fun e => h.1 e.symm
    simp [upToDelim, hc, ih h.2]

theorem not_mem_of_upToDelim_none (d : Char) (l : List Char) (h : upToDelim d l = none) :
    d ∉ l := by
  induction l with
  | nil => simp
  | cons c cs ih =>
    by_cases hc : c = d
    · simp [upToDelim, hc] at h
    · simp only [upToDelim, hc, if_false, Option.map_eq_none'] at h
      simp only [List.mem_cons, not_or]
      exact ⟨fun e => hc e.symm, ih h⟩

theorem upToDelim_append (d : Char) (pre tail : List Char) (h : d ∉ pre) :
    upToDelim d (pre ++ d :: tail) = some (pre ++ [d]) := by
  induction pre with
  | nil => simp [upToDelim]
  | cons c cs ih =>
    simp only [List.mem_cons, not_or] at h
    have hc : ¬ c = d := fun e => h.1 e.symm
    simp [upToDelim, hc, ih h.2]

theorem upToDelim_some (d : Char) (l line : List Char) (h : upToDelim d l = some line) :
    ∃ pre, line = pre ++ [d] ∧ d ∉ pre := by
  induction l generalizing line with
  | nil => simp [upToDelim] at h
  | cons c cs ih =>
    by_cases hc : c = d
    · simp [upToDelim, hc] at h
      exact ⟨[], by simp [← h], by simp⟩
    · simp only [upToDelim, hc, if_false, Option.map_eq_some'] at h
      obtain ⟨l1, hl1, rfl⟩ := h
      obtain ⟨pre, rfl, hpre⟩ := ih l1 hl1
      refine ⟨c :: pre, by simp, ?_⟩
      simp only [List.mem_cons, not_or]
      exact ⟨fun e => hc e.symm, hpre⟩

/-- A line that `ReadString` returns without error ends in the delimiter and holds it
nowhere else. -/
theorem ReadString_ok_shape (d : Char) (evs : List ReadEv) (acc : List Char)
    (hacc : d ∉ acc) (h : (ReadString d evs acc).1.2 = none) :
    ∃ pre, (ReadString d evs acc).1.1 = String.mk (pre ++ [d]) ∧ d ∉ pre := by
  induction evs generalizing acc with
  | nil => simp [ReadString] at h
  | cons ev rest ih =>
    cases ev with
    | fail err => simp [ReadString] at h
    | data bytes =>
      by_cases hb : bytes.data = []
      · simp [ReadString, hb] at h
      · cases hu : upToDelim d bytes.data with
        | some line =>
          obtain ⟨pre, rfl, hpre⟩ := upToDelim_some d _ _ hu
          refine ⟨acc ++ pre, ?_, ?_⟩
          · simp [ReadString, hb, hu]
          · simp [hacc, hpre]
        | none =>
          have hnot : d ∉ bytes.data := not_mem_of_upToDelim_none d _ hu
          simp only [ReadString, hb, hu, if_false] at h ⊢
          exact ih (acc ++ bytes.data) (by simp [hacc, hnot]) h

theorem TrimSuffix_newline (pre : List Char) :
    TrimSuffix (String.mk (pre ++ ['\n'])) "\n" = String.mk pre := by
  have hd : ("\n" : String).data = ['\n'] := rfl
  have hs : (['\n'] : List Char).isSuffixOf (pre ++ ['\n']) = true := by
    rw [List.isSuffixOf_iff_suffix]
    exact List.suffix_append pre ['\n']
  unfold TrimSuffix
  simp [hd, hs]

/-- The string and the world that `readStringStdin` returns, by the outcome of `ReadString`. -/
theorem readStringStdin_cases (w : World C F) :
    (∃ err, (ReadString '\n' w.stdin []).1.2 = some err ∧
      readStringStdin w = ("", ({ w with stdin := (ReadString '\n' w.stdin []).2 } : World C F).emit
        (.log ("invalid option: " ++ err)))) ∨
    (∃ pre, '\n' ∉ pre ∧ (ReadString '\n' w.stdin []).1 = (String.mk (pre ++ ['\n']), none) ∧
      readStringStdin w = (String.mk pre, { w with stdin := (ReadString '\n' w.stdin []).2 })) := by
  cases h : (ReadString '\n' w.stdin []).1.2 with
  | some err =>
    left
    refine ⟨err, rfl, ?_⟩
    unfold readStringStdin
    simp [h]
  | none =>
    right
    obtain ⟨pre, hpre, hno⟩ := ReadString_ok_shape '\n' w.stdin [] (by simp) h
    refine ⟨pre, hno, Prod.ext hpre h, ?_⟩
    unfold readStringStdin
    simp [h, hpre, TrimSuffix_newline]

theorem readStringStdin_chain (w : World C F) : (readStringStdin w).2.chain = w.chain := by
  rcases readStringStdin_cases w with ⟨err, _, h⟩ | ⟨pre, _, _, h⟩
  · rw [h]
    rfl
  · rw [h]

theorem readStringStdin_myenv (w : World C F) : (readStringStdin w).2.myenv = w.myenv := by
  rcases readStringStdin_cases w with ⟨err, _, h⟩ | ⟨pre, _, _, h⟩
  · rw [h]
    rfl
  · rw [h]

theorem readStringStdin_envFile (w : World C F) : (readStringStdin w).2.envFile = w.envFile := by
  rcases readStringStdin_cases w with ⟨err, _, h⟩ | ⟨pre, _, _, h⟩
  · rw [h]
    rfl
  · rw [h]

theorem readStringStdin_calls (w : World C F) :
    calls (readStringStdin w).2.trace = calls w.trace := by
  rcases readStringStdin_cases w with ⟨err, _, h⟩ | ⟨pre, _, _, h⟩
  · rw [h]
    simp [emit_trace, calls, Event.isCall]
  · rw [h]

theorem ReadString_chunks (d : Char) (chunks : List String) (last tail : List Char)
    (rest : List ReadEv) (acc : List Char)
    (hch : ∀ c ∈ chunks, c.data ≠ [] ∧ d ∉ c.data) (hlast : d ∉ last) :
    ReadString d (chunks.map ReadEv.data ++ ReadEv.data (String.mk (last ++ d :: tail)) :: rest) acc
      = ((String.mk (acc ++ (chunks.map String.data).flatten ++ last ++ [d]), none), rest) := by
  induction chunks generalizing acc with
  | nil => simp [ReadString, upToDelim_append d last tail hlast]
  | cons c cs ih =>
    have hc := hch c (List.mem_cons_self c cs)
    have hcs : ∀ c1 ∈ cs, c1.data ≠ [] ∧ d ∉ c1.data := fun c1 h1 =>
      hch c1 (List.mem_cons_of_mem c h1)
    simp only [List.map_cons, List.cons_append, ReadString, hc.1, if_false,
      upToDelim_eq_none d c.data hc.2, List.flatten_cons, List.append_eq]
    rw [ih (acc ++ c.data) hcs]
    simp [List.append_assoc]

theorem readStringStdin_line (w : World C F) (s : String) (rest : List ReadEv)
    (hs : '\n' ∉ s.data) (hin : w.stdin = ReadEv.data (s ++ "\n") :: rest) :
    readStringStdin w = (s, { w with stdin := rest }) := by
  have hrs := ReadString_chunks '\n' [] s.data [] rest [] (by simp) hs
  have hstr : s ++ "\n" = String.mk (s.data ++ ['\n']) := by
    apply String.ext
    have hd : ("\n" : String).data = ['\n'] := rfl
    simp [String.data_append, hd]
  unfold readStringStdin
  rw [hin, hstr]
  simp only [List.map_nil, List.nil_append, List.flatten_nil] at hrs
  rw [hrs]
  simp only [TrimSuffix_newline]

theorem ReadString_noNewline (evs : List ReadEv) (acc : List Char) (h : noNewline evs) :
    (∃ err, (ReadString '\n' evs acc).1.2 = some err) ∧ noNewline (ReadString '\n' evs acc).2 := by
  induction evs generalizing acc with
  | nil => exact ⟨⟨"EOF", rfl⟩, h⟩
  | cons ev rest ih =>
    have hrest : noNewline rest := fun s hs => h s (List.mem_cons_of_mem ev hs)
    cases ev with
    | fail err => exact ⟨⟨err, rfl⟩, hrest⟩
    | data bytes =>
      by_cases hb : bytes.data = []
      · simp only [ReadString, hb, if_true]
        exact ⟨⟨"EOF", rfl⟩, hrest⟩
      · have hno : '\n' ∉ bytes.data := h bytes (List.mem_cons_self _ _)
        simp only [ReadString, hb, if_false, upToDelim_eq_none '\n' bytes.data hno]
        exact ih (acc ++ bytes.data) hrest

/-! ## Facts about the menu -/

theorem readQuestion_calls (ext : Ext C F) (s : QuizSession) (w : World C F) :
    calls (readQuestion ext s w).trace = calls w.trace ++ [.question s] := by
  unfold readQuestion
  dsimp only
  split <;> simp [emit_trace, calls, Event.isCall]

theorem sendAnswer_calls (ext : Ext C F) (s : QuizSession) (ans : String) (w : World C F) :
    calls (sendAnswer ext s ans w).trace
      = calls w.trace ++ [.sendAnswer s (stringToKeccak256 ext ans)] := by
  unfold sendAnswer
  dsimp only
  split <;> simp [emit_trace, calls, Event.isCall]

theorem checkCorrect_calls (ext : Ext C F) (s : QuizSession) (w : World C F) :
    calls (checkCorrect ext s w).trace = calls w.trace ++ [.checkBoard s] := by
  unfold checkCorrect
  dsimp only
  split <;> simp [emit_trace, calls, Event.isCall]

/-- The pass through the menu when reading the choice fails. -/
theorem menuStep_read_error (ext : Ext C F) (session : QuizSession) (w : World C F) (err : Err)
    (h : (ReadString '\n' w.stdin []).1.2 = some err) :
    menuStep ext session w =
      (.next, { w with
        stdin := (ReadString '\n' w.stdin []).2
        trace := w.trace ++ [.out menuText, .log ("invalid option: " ++ err),
          .out "Invalid option. Please try again.\n"] }) := by
  have hr : readStringStdin (w.emit (.out menuText)) =
      ("", ({ w.emit (.out menuText) with stdin := (ReadString '\n' w.stdin []).2 } : World C F).emit
        (.log ("invalid option: " ++ err))) := by
    unfold readStringStdin
    simp [emit_stdin, h]
  unfold menuStep
  dsimp only
  rw [hr]
  simp [World.emit]

theorem mainLoop_noNewline (ext : Ext C F) (session : QuizSession) (fuel : Nat)
    (w : World C F) (h : noNewline w.stdin) :
    (mainLoop ext session fuel w).1 = .next ∧
    calls (mainLoop ext session fuel w).2.trace = calls w.trace := by
  induction fuel generalizing w with
  | zero => exact ⟨rfl, rfl⟩
  | succ n ih =>
    obtain ⟨⟨err, herr⟩, hrest⟩ := ReadString_noNewline w.stdin [] h
    have hstep := menuStep_read_error ext session w err herr
    simp only [mainLoop, hstep]
    have := ih { w with
        stdin := (ReadString '\n' w.stdin []).2
        trace := w.trace ++ [.out menuText, .log ("invalid option: " ++ err),
          .out "Invalid option. Please try again.\n"] } hrest
    refine ⟨this.1, ?_⟩
    rw [this.2]
    simp [calls, Event.isCall]

theorem menuStep_done_iff (ext : Ext C F) (session : QuizSession) (w : World C F) :
    (menuStep ext session w).1 = .done ↔ (choiceRead w).1 = "4" := by
  unfold menuStep choiceRead
  dsimp only
  by_cases h1 : (readStringStdin (w.emit (.out menuText))).1 = "1"
  · simp [h1]
  · by_cases h2 : (readStringStdin (w.emit (.out menuText))).1 = "2"
    · simp [h2]
    · by_cases h3 : (readStringStdin (w.emit (.out menuText))).1 = "3"
      · simp [h3]
      · by_cases h4 : (readStringStdin (w.emit (.out menuText))).1 = "4"
        · simp [h4]
        · simp [h1, h2, h3, h4]

theorem choice_four_iff (w : World C F) :
    (choiceRead w).1 = "4" ↔ (ReadString '\n' w.stdin []).1 = ("4\n", none) := by
  have hc := readStringStdin_cases (w.emit (.out menuText))
  simp only [emit_stdin] at hc
  unfold choiceRead
  rcases hc with ⟨err, herr, h⟩ | ⟨pre, _, hrs, h⟩
  · rw [h]
    constructor
    · intro h0
      have h1 : ("" : String) = "4" := h0
      exact absurd h1 (by decide)
    · intro h0
      rw [h0] at herr
      cases herr
  · rw [h, hrs]
    constructor
    · intro h0
      have hp : pre = ['4'] := congrArg String.data h0
      rw [hp]
      rfl
    · intro h0
      have h5 : pre ++ ['\n'] = ['4'] ++ ['\n'] := congrArg (fun p => p.1.data) h0
      rw [List.append_cancel_right h5]

theorem menuStep_one (ext : Ext C F) (session : QuizSession) (w : World C F)
    (h : (choiceRead w).1 = "1") :
    menuStep ext session w = (.next, readQuestion ext session (choiceRead w).2) := by
  unfold choiceRead at h
  unfold menuStep choiceRead
  simp [h]

theorem menuStep_two (ext : Ext C F) (session : QuizSession) (w : World C F)
    (h : (choiceRead w).1 = "2") :
    menuStep ext session w =
      (.next, sendAnswer ext session (answerRead w).1 (answerRead w).2) := by
  unfold choiceRead at h
  unfold menuStep answerRead choiceRead
  simp [h]

theorem menuStep_three (ext : Ext C F) (session : QuizSession) (w : World C F)
    (h : (choiceRead w).1 = "3") :
    menuStep ext session w = (.next, checkCorrect ext session (choiceRead w).2) := by
  unfold choiceRead at h
  unfold menuStep choiceRead
  simp [h]

theorem menuStep_four (ext : Ext C F) (session : QuizSession) (w : World C F)
    (h : (choiceRead w).1 = "4") :
    menuStep ext session w = (.done, (choiceRead w).2.emit (.out "Bye!\n")) := by
  unfold choiceRead at h
  unfold menuStep choiceRead
  simp [h]

theorem menuStep_other (ext : Ext C F) (session : QuizSession) (w : World C F)
    (h1 : (choiceRead w).1 ≠ "1") (h2 : (choiceRead w).1 ≠ "2")
    (h3 : (choiceRead w).1 ≠ "3") (h4 : (choiceRead w).1 ≠ "4") :
    menuStep ext session w =
      (.next, (choiceRead w).2.emit (.out "Invalid option. Please try again.\n")) := by
  unfold choiceRead at h1 h2 h3 h4
  unfold menuStep choiceRead
  simp [h1, h2, h3, h4]

theorem choiceRead_calls (w : World C F) : calls (choiceRead w).2.trace = calls w.trace := by
  unfold choiceRead
  rw [readStringStdin_calls]
  simp [emit_trace, calls, Event.isCall]

theorem answerRead_calls (w : World C F) : calls (answerRead w).2.trace = calls w.trace := by
  unfold answerRead
  rw [readStringStdin_calls, emit_trace, calls_append, choiceRead_calls]
  simp [calls, Event.isCall]

/-- The pass through the menu when the choice read is `2` and the read of the answer
fails: the error is logged and `sendAnswer` is given the empty string. -/
theorem menuStep_answer_read_error (ext : Ext C F) (session : QuizSession) (w : World C F)
    (err : Err) (hchoice : (choiceRead w).1 = "2")
    (herr : (ReadString '\n' (choiceRead w).2.stdin []).1.2 = some err) :
    answerRead w =
      ("", ({ (choiceRead w).2.emit (.out "Type in your answer\n") with
          stdin := (ReadString '\n' (choiceRead w).2.stdin []).2 } : World C F).emit
        (.log ("invalid option: " ++ err))) ∧
    menuStep ext session w =
      (.next, sendAnswer ext session ""
        (({ (choiceRead w).2.emit (.out "Type in your answer\n") with
          stdin := (ReadString '\n' (choiceRead w).2.stdin []).2 } : World C F).emit
        (.log ("invalid option: " ++ err)))) ∧
    calls (menuStep ext session w).2.trace =
      calls w.trace ++ [.sendAnswer session (stringToKeccak256 ext "")] := by
  have ha : answerRead w =
      ("", ({ (choiceRead w).2.emit (.out "Type in your answer\n") with
          stdin := (ReadString '\n' (choiceRead w).2.stdin []).2 } : World C F).emit
        (.log ("invalid option: " ++ err))) := by
    unfold answerRead readStringStdin
    simp [emit_stdin, herr]
  have hm := menuStep_two ext session w hchoice
  refine ⟨ha, ?_, ?_⟩
  · rw [hm, ha]
  · rw [hm, sendAnswer_calls, answerRead_calls, ha]

theorem mainLoop_succ (ext : Ext C F) (session : QuizSession) (fuel : Nat) (w : World C F) :
    mainLoop ext session (fuel + 1) w =
      if (menuStep ext session w).1 = .done then (.done, (menuStep ext session w).2)
      else mainLoop ext session fuel (menuStep ext session w).2 := by
  rw [mainLoop]
  rcases hm : menuStep ext session w with ⟨c, w1⟩
  cases c <;> simp

/-! ## The claims -/

/-- C1. Menu dispatch in the loop of `main`: a pass prints the menu, reads one line and
does exactly what the table says.  On `1` it runs `readQuestion`, which makes the one
`Question` call; on `2` it prints the prompt, reads one further line and runs `sendAnswer`
on it, which makes the one `SendAnswer` call; on `3` it runs `checkCorrect`, which makes the
one `CheckBoard` call; on `4` it prints the farewell, calls nothing and ends the loop; on
any other line it prints the invalid-option message, calls nothing and leaves chain and
configuration alone.  Every pass but the one on `4` goes on to the next pass with the
same session. -/
theorem menu_dispatch (ext : Ext C F) (session : QuizSession) (w : World C F) :
    ((choiceRead w).1 = "1" →
      menuStep ext session w = (.next, readQuestion ext session (choiceRead w).2) ∧
      calls (menuStep ext session w).2.trace = calls w.trace ++ [.question session]) ∧
    ((choiceRead w).1 = "2" →
      menuStep ext session w =
        (.next, sendAnswer ext session (answerRead w).1 (answerRead w).2) ∧
      calls (menuStep ext session w).2.trace =
        calls w.trace ++ [.sendAnswer session (stringToKeccak256 ext (answerRead w).1)]) ∧
    ((choiceRead w).1 = "3" →
      menuStep ext session w = (.next, checkCorrect ext session (choiceRead w).2) ∧
      calls (menuStep ext session w).2.trace = calls w.trace ++ [.checkBoard session]) ∧
    ((choiceRead w).1 = "4" →
      menuStep ext session w = (.done, (choiceRead w).2.emit (.out "Bye!\n")) ∧
      calls (menuStep ext session w).2.trace = calls w.trace ∧
      (menuStep ext session w).2.chain = w.chain) ∧
    ((choiceRead w).1 ≠ "1" → (choiceRead w).1 ≠ "2" → (choiceRead w).1 ≠ "3" →
      (choiceRead w).1 ≠ "4" →
      menuStep ext session w =
        (.next, (choiceRead w).2.emit (.out "Invalid option. Please try again.\n")) ∧
      calls (menuStep ext session w).2.trace = calls w.trace ∧
      (menuStep ext session w).2.chain = w.chain ∧
      (menuStep ext session w).2.myenv = w.myenv ∧
      (menuStep ext session w).2.envFile = w.envFile) ∧
    (∀ fuel, mainLoop ext session (fuel + 1) w =
      if (choiceRead w).1 = "4" then (.done, (menuStep ext session w).2)
      else mainLoop ext session fuel (menuStep ext session w).2) := by
  refine ⟨?_, ?_, ?_, ?_, ?_, ?_⟩
  · intro h
    have hm := menuStep_one ext session w h
    refine ⟨hm, ?_⟩
    rw [hm]
    simp only [readQuestion_calls, choiceRead_calls]
  · intro h
    have hm := menuStep_two ext session w h
    refine ⟨hm, ?_⟩
    rw [hm]
    simp only [sendAnswer_calls, answerRead_calls]
  · intro h
    have hm := menuStep_three ext session w h
    refine ⟨hm, ?_⟩
    rw [hm]
    simp only [checkCorrect_calls, choiceRead_calls]
  · intro h
    have hm := menuStep_four ext session w h
    refine ⟨hm, ?_, ?_⟩
    · rw [hm]
      simp only [emit_trace, calls_append, choiceRead_calls]
      simp [calls, Event.isCall]
    · rw [hm]
      simp only [emit_chain, choiceRead, readStringStdin_chain]
  · intro h1 h2 h3 h4
    have hm := menuStep_other ext session w h1 h2 h3 h4
    refine ⟨hm, ?_, ?_, ?_, ?_⟩
    · rw [hm]
      simp only [emit_trace, calls_append, choiceRead_calls]
      simp [calls, Event.isCall]
    · rw [hm]
      simp only [emit_chain, choiceRead, readStringStdin_chain]
    · rw [hm]
      simp only [emit_myenv, choiceRead, readStringStdin_myenv]
    · rw [hm]
      simp only [emit_envFile, choiceRead, readStringStdin_envFile]
  · intro fuel
    rw [mainLoop_succ]
    simp only [menuStep_done_iff]

theorem menu_dispatch_witness :
    calls (menuStep demoExt demoSession { demoWorld with stdin := [.data "1\n"] }).2.trace
      = [.question demoSession] ∧
    calls (menuStep demoExt demoSession
        { demoWorld with stdin := [.data "2\n", .data "4\n"] }).2.trace
      = [.sendAnswer demoSession (stringToKeccak256 demoExt
          (answerRead ({ demoWorld with stdin := [.data "2\n", .data "4\n"] } :
            World Nat (Option Env))).1)] ∧
    (menuStep demoExt demoSession { demoWorld with stdin := [.data "4\n"] }).1 = .done ∧
    menuStep demoExt demoSession { demoWorld with stdin := [.data "5\n"] } =
      (.next, (choiceRead ({ demoWorld with stdin := [.data "5\n"] } :
        World Nat (Option Env))).2.emit (.out "Invalid option. Please try again.\n")) :=
  ⟨((menu_dispatch demoExt demoSession { demoWorld with stdin := [.data "1\n"] }).1
      (by decide)).2,
   ((menu_dispatch demoExt demoSession
      { demoWorld with stdin := [.data "2\n", .data "4\n"] }).2.1 (by decide)).2,
   congrArg Prod.fst ((menu_dispatch demoExt demoSession
      { demoWorld with stdin := [.data "4\n"] }).2.2.2.1 (by decide)).1,
   ((menu_dispatch demoExt demoSession { demoWorld with stdin := [.data "5\n"] }).2.2.2.2.1
      (by decide) (by decide) (by decide) (by decide)).1⟩

/-- C2, as the code has it. Which of `NewContract` and `LoadContract` run is selected by
whether `CONTRACTADDR` is empty when `main` reaches the contract lifecycle: when it is
not empty only `LoadContract` runs; when it is empty `NewContract` runs, and after a
successful deploy `LoadContract` runs as well in the same start, while a failed
deploy stops the process before `LoadContract`. -/
theorem lifecycle_selection (ext : Ext C F) (session : QuizSession) (client : Client)
    (w : World C F) :
    (mapGet w.myenv "CONTRACTADDR" ≠ "" →
      mainLifecycle ext session client w = LoadContract ext session client w ∧
      deployRuns (mainLifecycle ext session client w).world.trace = deployRuns w.trace ∧
      loadRuns (mainLifecycle ext session client w).world.trace = loadRuns w.trace + 1) ∧
    (mapGet w.myenv "CONTRACTADDR" = "" →
      (∀ addr tx inst c1,
        ext.DeployQuiz w.chain session.TransactOpts client (mapGet w.myenv "QUESTION")
          (stringToKeccak256 ext (mapGet w.myenv "ANSWER")) = (.ok (addr, tx, inst), c1) →
        deployRuns (mainLifecycle ext session client w).world.trace = deployRuns w.trace + 1 ∧
        loadRuns (mainLifecycle ext session client w).world.trace = loadRuns w.trace + 1) ∧
      (∀ err c1,
        ext.DeployQuiz w.chain session.TransactOpts client (mapGet w.myenv "QUESTION")
          (stringToKeccak256 ext (mapGet w.myenv "ANSWER")) = (.error err, c1) →
        (∃ w1, mainLifecycle ext session client w = .fatal w1) ∧
        deployRuns (mainLifecycle ext session client w).world.trace = deployRuns w.trace + 1 ∧
        loadRuns (mainLifecycle ext session client w).world.trace = loadRuns w.trace)) := by
  constructor
  · intro h
    have hm : mainLifecycle ext session client w = LoadContract ext session client w := by
      unfold mainLifecycle
      simp [h, Res.andThen]
    refine ⟨hm, ?_, ?_⟩
    · rw [hm]
      unfold deployRuns
      rw [LoadContract_filter ext session client w Event.isDeploy (fun _ => rfl)]
      simp [Event.isDeploy]
    · rw [hm]
      unfold loadRuns
      rw [LoadContract_filter ext session client w Event.isAttach (fun _ => rfl)]
      simp [Event.isAttach]
  · intro h
    have hd := NewContract_filter ext session client (mapGet w.myenv "QUESTION")
      (mapGet w.myenv "ANSWER") w Event.isDeploy (fun _ => rfl) (fun _ => rfl)
    have ha := NewContract_filter ext session client (mapGet w.myenv "QUESTION")
      (mapGet w.myenv "ANSWER") w Event.isAttach (fun _ => rfl) (fun _ => rfl)
    constructor
    · intro addr tx inst c1 hdeploy
      obtain ⟨w1, hnc, hmy, _, _⟩ := NewContract_ok ext session client _ _ w addr tx inst c1 hdeploy
      have hne : mapGet w1.myenv "CONTRACTADDR" ≠ "" := by
        rw [hmy, mapGet_mapSet_self]
        exact addrHex_ne_empty ext addr
      have hm : mainLifecycle ext session client w =
          LoadContract ext { session with Contract := some inst } client w1 := by
        unfold mainLifecycle
        simp [h, hnc, Res.andThen, hne]
      rw [hnc] at hd ha
      simp only [Res.world] at hd ha
      rw [hm]
      constructor
      · unfold deployRuns
        rw [LoadContract_filter ext _ client w1 Event.isDeploy (fun _ => rfl), hd]
        simp [Event.isDeploy]
      · unfold loadRuns
        rw [LoadContract_filter ext _ client w1 Event.isAttach (fun _ => rfl), ha]
        simp [Event.isAttach]
    · intro err c1 hdeploy
      obtain ⟨w1, hnc⟩ := NewContract_fail ext session client _ _ w err c1 hdeploy
      have hm : mainLifecycle ext session client w = .fatal w1 := by
        unfold mainLifecycle
        simp [h, hnc, Res.andThen]
      rw [hnc] at hd ha
      simp only [Res.world] at hd ha
      refine ⟨⟨w1, hm⟩, ?_, ?_⟩
      · rw [hm]
        unfold deployRuns
        simp only [Res.world]
        rw [hd]
        simp [Event.isDeploy]
      · rw [hm]
        unfold loadRuns
        simp only [Res.world]
        rw [ha]
        simp [Event.isAttach]

theorem lifecycle_selection_witness :
    (mainLifecycle demoExt demoSession ⟨1⟩ demoDeployed
        = LoadContract demoExt demoSession ⟨1⟩ demoDeployed ∧
      deployRuns (mainLifecycle demoExt demoSession ⟨1⟩ demoDeployed).world.trace = 0 ∧
      loadRuns (mainLifecycle demoExt demoSession ⟨1⟩ demoDeployed).world.trace = 1) ∧
    (deployRuns (mainLifecycle demoExt demoSession ⟨1⟩ demoLoaded).world.trace = 1 ∧
      loadRuns (mainLifecycle demoExt demoSession ⟨1⟩ demoLoaded).world.trace = 1) :=
  ⟨(lifecycle_selection demoExt demoSession ⟨1⟩ demoDeployed).1 (by decide),
   ((lifecycle_selection demoExt demoSession ⟨1⟩ demoLoaded).2 (by decide)).1
      ⟨42⟩ ⟨"0xabc"⟩ ⟨1⟩ 1 rfl⟩

/-- C2 fails as stated: started with an empty `CONTRACTADDR` and a deploy that succeeds,
`main` runs `NewContract` and then `LoadContract` in the same start. -/
theorem deploy_then_load_same_start :
    mapGet (loadEnv demoExt demoWorld).myenv "CONTRACTADDR" = "" ∧
    deployRuns (main demoExt 0 demoWorld).world.trace = 1 ∧
    loadRuns (main demoExt 0 demoWorld).world.trace = 1 ∧
    ¬ (deployRuns (main demoExt 0 demoWorld).world.trace
        + loadRuns (main demoExt 0 demoWorld).world.trace = 1) := by
  decide

/-- C3 (what the code does). When `os.Open` fails on the configured keystore and
`bind.NewTransactor`, handed the nil file, returns a nil authorization, `NewSession`
logs the open error and then dereferences the nil authorization: it panics and returns
no session. -/
theorem NewSession_unreadable_keystore_panics (ext : Ext C F) (ctx : Context)
    (w : World C F) (err : Err)
    (hopen : ext.osOpen (mapGet (some (ext.dotenvRead w.envFile).1) "KEYSTORE") = .error err)
    (hauth : (ext.NewTransactor none
      (mapGet (some (ext.dotenvRead w.envFile).1) "KEYSTOREPASS")).1 = none) :
    (∃ w1, NewSession ext ctx w = .panic w1 ∧
      Event.log ("could not load keystore from location "
        ++ mapGet (some (ext.dotenvRead w.envFile).1) "KEYSTORE" ++ ": " ++ err) ∈ w1.trace) ∧
    ∀ s w1, NewSession ext ctx w ≠ .ok s w1 := by
  have key : ∃ w1, NewSession ext ctx w = .panic w1 ∧
      Event.log ("could not load keystore from location "
        ++ mapGet (some (ext.dotenvRead w.envFile).1) "KEYSTORE" ++ ": " ++ err) ∈ w1.trace := by
    unfold NewSession
    dsimp only
    rw [loadEnv_myenv, hopen]
    dsimp only [emit_myenv]
    rw [loadEnv_myenv, hauth]
    dsimp only
    refine ⟨_, rfl, ?_⟩
    split <;> simp [emit_trace]
  refine ⟨key, ?_⟩
  obtain ⟨w1, h1, _⟩ := key
  intro s w2 h2
  rw [h1] at h2
  cases h2

theorem NewSession_unreadable_keystore_panics_witness :
    (∃ w1, NewSession demoExt 0 { demoWorld with envFile := some [("KEYSTORE", "missing.json")] }
        = .panic w1 ∧
      Event.log ("could not load keystore from location "
        ++ mapGet (some [("KEYSTORE", "missing.json")]) "KEYSTORE" ++ ": "
        ++ "open: no such file or directory") ∈ w1.trace) ∧
    ∀ s w1, NewSession demoExt 0 { demoWorld with envFile := some [("KEYSTORE", "missing.json")] }
        ≠ .ok s w1 :=
  NewSession_unreadable_keystore_panics demoExt 0
    { demoWorld with envFile := some [("KEYSTORE", "missing.json")] }
    "open: no such file or directory" rfl rfl

/-- C4. Environment Store round trip: for every made in-memory configuration `m` held in
`myenv`, key `k` and value `v`, when `godotenv.Write` of the updated map succeeds and
reading the file it wrote gives back that map, `updateEnvFile k v` returns without
logging anything, and a following `loadEnv` yields a map that binds `k` to `v` and gives
every other key what `m` gave it. -/
theorem envStore_roundtrip (ext : Ext C F) (w : World C F) (m : Env) (k v : String)
    (hmade : w.myenv = some m)
    (hwrite : (ext.dotenvWrite (mapSet m k v) w.envFile).2 = none)
    (hformat : ∀ k1, (ext.dotenvRead (ext.dotenvWrite (mapSet m k v) w.envFile).1).1.lookup k1
      = (mapSet m k v).lookup k1) :
    ∃ w1, updateEnvFile ext k v w = .ok () w1 ∧
      w1.trace = w.trace ∧
      mapLookup (loadEnv ext w1).myenv k = some v ∧
      mapGet (loadEnv ext w1).myenv k = v ∧
      ∀ k1, k1 ≠ k → mapLookup (loadEnv ext w1).myenv k1 = m.lookup k1 := by
  obtain ⟨w1, hupd, _, hfile, _, _, htrace⟩ := updateEnvFile_made ext k v w m hmade
  have hread : ∀ k1, mapLookup (loadEnv ext w1).myenv k1 = (mapSet m k v).lookup k1 := by
    intro k1
    rw [loadEnv_myenv, hfile]
    exact hformat k1
  refine ⟨w1, hupd, htrace hwrite, ?_, ?_, ?_⟩
  · rw [hread, lookup_mapSet_self]
  · have h1 := hread k
    rw [lookup_mapSet_self, loadEnv_myenv] at h1
    rw [loadEnv_myenv]
    simp only [mapLookup] at h1
    simp only [mapGet, h1]
    rfl
  · intro k1 hne
    rw [hread, lookup_mapSet_other _ _ _ _ hne]

theorem envStore_roundtrip_witness :
    ∃ w1, updateEnvFile demoExt "CONTRACTADDR" "0x2A" demoLoaded = .ok () w1 ∧
      mapGet (loadEnv demoExt w1).myenv "CONTRACTADDR" = "0x2A" ∧
      mapGet (loadEnv demoExt w1).myenv "GATEWAY" = "http://localhost:8545" ∧
      mapGet (loadEnv demoExt w1).myenv "KEYSTORE" = "key.json" ∧
      mapGet (loadEnv demoExt w1).myenv "KEYSTOREPASS" = "pw" ∧
      mapLookup (loadEnv demoExt w1).myenv "QUESTION" = some "2+2?" ∧
      mapLookup (loadEnv demoExt w1).myenv "ANSWER" = some "4" ∧
      ∀ k1, k1 ≠ "CONTRACTADDR" →
        mapLookup (loadEnv demoExt w1).myenv k1 = demoEnv.lookup k1 := by
  obtain ⟨w1, hupd, _, _, _, hrest⟩ :=
    envStore_roundtrip demoExt demoLoaded demoEnv "CONTRACTADDR" "0x2A" rfl rfl (fun _ => rfl)
  refine ⟨w1, hupd, ?_, ?_, ?_, ?_, ?_, ?_, hrest⟩
  · cases hupd
    rfl
  · cases hupd
    rfl
  · cases hupd
    rfl
  · cases hupd
    rfl
  · exact (hrest "QUESTION" (by decide)).trans rfl
  · exact (hrest "ANSWER" (by decide)).trans rfl

/-- C5 (what the code does). When `quiz.NewQuiz` fails, `LoadContract` ends the process
in `log.Fatalf` right after logging the load error: the trace grows by the attach call and
the error line only, and the confirmation-wait hint is logged no more often than before. -/
theorem LoadContract_failure_omits_hint (ext : Ext C F) (session : QuizSession)
    (client : Client) (w : World C F) (err : Err)
    (hfail : ext.NewQuiz
      (ext.HexToAddress (mapGet (some (ext.dotenvRead w.envFile).1) "CONTRACTADDR")) client
        = .error err) :
    LoadContract ext session client w =
      .fatal (((loadEnv ext w).emit
        (.attach (ext.HexToAddress (mapGet (some (ext.dotenvRead w.envFile).1) "CONTRACTADDR")))).emit
        (.log ("could not load contract: " ++ err))) ∧
    (LoadContract ext session client w).world.trace.count (.log ErrTransactionWait)
      = w.trace.count (.log ErrTransactionWait) := by
  have h1 : LoadContract ext session client w =
      .fatal (((loadEnv ext w).emit
        (.attach (ext.HexToAddress (mapGet (some (ext.dotenvRead w.envFile).1) "CONTRACTADDR")))).emit
        (.log ("could not load contract: " ++ err))) := by
    unfold LoadContract
    dsimp only
    rw [loadEnv_myenv, hfail]
  refine ⟨h1, ?_⟩
  rw [h1]
  have hne : "could not load contract: " ++ err ≠ ErrTransactionWait :=
    ne_hint_of_head _ _ rfl
  simp [Res.world, emit_trace, List.count_append, List.count_cons, hne, loadEnv_hints]

theorem LoadContract_failure_omits_hint_witness :
    LoadContract demoExt demoSession ⟨1⟩
        { demoWorld with envFile := some [("CONTRACTADDR", "0x0")] } =
      .fatal (((loadEnv demoExt { demoWorld with envFile := some [("CONTRACTADDR", "0x0")] }).emit
        (.attach (demoExt.HexToAddress "0x0"))).emit
        (.log ("could not load contract: " ++ "no contract code at given address"))) ∧
    (LoadContract demoExt demoSession ⟨1⟩
        { demoWorld with envFile := some [("CONTRACTADDR", "0x0")] }).world.trace.count
      (.log ErrTransactionWait) = 0 :=
  LoadContract_failure_omits_hint demoExt demoSession ⟨1⟩
    { demoWorld with envFile := some [("CONTRACTADDR", "0x0")] }
    "no contract code at given address" rfl

/-- C6. Remote-call failures in the menu are recovered locally: when the remote call
fails, `readQuestion` and `checkCorrect` make the one call, log the error and then the
confirmation-wait hint exactly once, and print nothing; `sendAnswer` makes the one call,
logs the error and no hint, and prints nothing; the three menu options that make these
calls always leave `main` in its loop. -/
theorem remote_failures_recovered (ext : Ext C F) (session : QuizSession) (w : World C F) :
    (∀ err c1, ext.Question w.chain session = (.error err, c1) →
      readQuestion ext session w =
        { w with
          chain := c1
          trace := w.trace ++ [.question session,
            .log ("could not read question from contract: " ++ err),
            .log ErrTransactionWait] } ∧
      (readQuestion ext session w).trace.count (.log ErrTransactionWait)
        = w.trace.count (.log ErrTransactionWait) + 1) ∧
    (∀ ans err c1, ext.SendAnswer w.chain session (stringToKeccak256 ext ans) = (.error err, c1) →
      sendAnswer ext session ans w =
        { w with
          chain := c1
          trace := w.trace ++ [.sendAnswer session (stringToKeccak256 ext ans),
            .log ("could not send answer to contract: " ++ err)] } ∧
      (sendAnswer ext session ans w).trace.count (.log ErrTransactionWait)
        = w.trace.count (.log ErrTransactionWait)) ∧
    (∀ err c1, ext.CheckBoard w.chain session = (.error err, c1) →
      checkCorrect ext session w =
        { w with
          chain := c1
          trace := w.trace ++ [.checkBoard session,
            .log ("could not check leaderboard: " ++ err),
            .log ErrTransactionWait] } ∧
      (checkCorrect ext session w).trace.count (.log ErrTransactionWait)
        = w.trace.count (.log ErrTransactionWait) + 1) ∧
    ((readStringStdin (w.emit (.out menuText))).1 = "1" ∨
      (readStringStdin (w.emit (.out menuText))).1 = "2" ∨
      (readStringStdin (w.emit (.out menuText))).1 = "3" →
        (menuStep ext session w).1 = .next) := by
  refine ⟨?_, ?_, ?_, ?_⟩
  · intro err c1 h
    have h1 : readQuestion ext session w =
        { w with
          chain := c1
          trace := w.trace ++ [.question session,
            .log ("could not read question from contract: " ++ err),
            .log ErrTransactionWait] } := by
      unfold readQuestion
      dsimp only
      rw [emit_chain, h]
      simp [World.emit]
    refine ⟨h1, ?_⟩
    rw [h1]
    have hne : "could not read question from contract: " ++ err ≠ ErrTransactionWait :=
      ne_hint_of_head _ _ rfl
    simp [List.count_append, List.count_cons, hne]
  · intro ans err c1 h
    have h1 : sendAnswer ext session ans w =
        { w with
          chain := c1
          trace := w.trace ++ [.sendAnswer session (stringToKeccak256 ext ans),
            .log ("could not send answer to contract: " ++ err)] } := by
      unfold sendAnswer
      dsimp only
      rw [emit_chain, h]
      simp [World.emit]
    refine ⟨h1, ?_⟩
    rw [h1]
    have hne : "could not send answer to contract: " ++ err ≠ ErrTransactionWait :=
      ne_hint_of_head _ _ rfl
    simp [List.count_append, List.count_cons, hne]
  · intro err c1 h
    have h1 : checkCorrect ext session w =
        { w with
          chain := c1
          trace := w.trace ++ [.checkBoard session,
            .log ("could not check leaderboard: " ++ err),
            .log ErrTransactionWait] } := by
      unfold checkCorrect
      dsimp only
      rw [emit_chain, h]
      simp [World.emit]
    refine ⟨h1, ?_⟩
    rw [h1]
    have hne : "could not check leaderboard: " ++ err ≠ ErrTransactionWait :=
      ne_hint_of_head _ _ rfl
    simp [List.count_append, List.count_cons, hne]
  · intro h
    unfold menuStep
    dsimp only
    rcases h with h | h | h <;> simp [h]

theorem remote_failures_recovered_witness :
    readQuestion demoExt demoSession demoWorld =
      { demoWorld with
        chain := 0
        trace := demoWorld.trace ++ [.question demoSession,
          .log ("could not read question from contract: " ++ "no contract code"),
          .log ErrTransactionWait] } ∧
    sendAnswer demoExt demoSession "4" demoWorld =
      { demoWorld with
        chain := 0
        trace := demoWorld.trace ++ [.sendAnswer demoSession (stringToKeccak256 demoExt "4"),
          .log ("could not send answer to contract: " ++ "insufficient funds")] } ∧
    checkCorrect demoExt demoSession demoWorld =
      { demoWorld with
        chain := 0
        trace := demoWorld.trace ++ [.checkBoard demoSession,
          .log ("could not check leaderboard: " ++ "no contract code"),
          .log ErrTransactionWait] } :=
  ⟨((remote_failures_recovered demoExt demoSession demoWorld).1 "no contract code" 0 rfl).1,
   ((remote_failures_recovered demoExt demoSession demoWorld).2.1 "4" "insufficient funds" 0
      rfl).1,
   ((remote_failures_recovered demoExt demoSession demoWorld).2.2.1 "no contract code" 0
      rfl).1⟩

/-- C7. Hashing is the same at deploy and at submit: the digest is the 32-byte array that
`stringToKeccak256` builds; when the choice read is `2` and the next line read is `s`,
the one call the pass makes on the contract is `SendAnswer` with `stringToKeccak256 s`,
as it is whenever `sendAnswer` is given `s`; and `NewContract`, given the answer `s`,
makes the one call `DeployQuiz` with that same digest. -/
theorem hashing_identical (ext : Ext C F) (session : QuizSession) (client : Client)
    (question s : String) (w : World C F) :
    (stringToKeccak256 ext s).length = 32 ∧
    stringToKeccak256 ext s = copy32 (ext.Keccak256 (goBytes s)) ∧
    calls (sendAnswer ext session s w).trace =
      calls w.trace ++ [.sendAnswer session (stringToKeccak256 ext s)] ∧
    ((choiceRead w).1 = "2" → (answerRead w).1 = s →
      calls (menuStep ext session w).2.trace =
        calls w.trace ++ [.sendAnswer session (stringToKeccak256 ext s)]) ∧
    (∀ rest, '\n' ∉ s.data →
      w.stdin = ReadEv.data "2\n" :: ReadEv.data (s ++ "\n") :: rest →
      calls (menuStep ext session w).2.trace =
        calls w.trace ++ [.sendAnswer session (stringToKeccak256 ext s)]) ∧
    calls (NewContract ext session client question s w).world.trace =
      calls w.trace ++ [.deploy session.TransactOpts question (stringToKeccak256 ext s)] := by
  refine ⟨copy32_length _, rfl, sendAnswer_calls ext session s w, ?_, ?_, ?_⟩
  · intro hc ha
    rw [menuStep_two ext session w hc, sendAnswer_calls, answerRead_calls, ha]
  · intro rest hs hin
    have hc : choiceRead w =
        ("2", { w.emit (.out menuText) with stdin := ReadEv.data (s ++ "\n") :: rest }) :=
      readStringStdin_line (w.emit (.out menuText)) "2" _ (by decide) hin
    have ha : (answerRead w).1 = s := by
      unfold answerRead
      rw [hc, readStringStdin_line _ s rest hs rfl]
    rw [menuStep_two ext session w (by rw [hc]), sendAnswer_calls, answerRead_calls, ha]
  · exact NewContract_filter ext session client question s w Event.isCall
      (fun _ => rfl) (fun _ => rfl)

theorem hashing_identical_witness :
    calls (menuStep demoExt demoSession
        { demoWorld with stdin := [.data "2\n", .data ("4" ++ "\n")] }).2.trace =
      calls ({ demoWorld with stdin := [.data "2\n", .data ("4" ++ "\n")] } :
        World Nat (Option Env)).trace
        ++ [.sendAnswer demoSession (stringToKeccak256 demoExt "4")] :=
  (hashing_identical demoExt demoSession ⟨1⟩ "2+2?" "4"
      { demoWorld with stdin := [.data "2\n", .data ("4" ++ "\n")] }).2.2.2.2.1 []
    (by decide) rfl

/-- C8. Deploy success postcondition: when `quiz.DeployQuiz` succeeds with
`(addr, tx, inst)`, `NewContract` returns the session with `inst` as its contract and
the same authorization and call context; the in-memory configuration is the map just
loaded from the environment file with `CONTRACTADDR` set to `addr.Hex()`, which is not
empty; every other key reads as loaded (and as before the call, when memory agreed with
the file, as it does in `main`); and `godotenv.Write` was given that whole map. -/
theorem NewContract_success (ext : Ext C F) (session : QuizSession) (client : Client)
    (question answer : String) (w : World C F) (addr : Address) (tx : Transaction)
    (inst : Quiz) (c1 : C)
    (hdeploy : ext.DeployQuiz w.chain session.TransactOpts client question
      (stringToKeccak256 ext answer) = (.ok (addr, tx, inst), c1)) :
    ∃ s1 w1, NewContract ext session client question answer w = .ok s1 w1 ∧
      s1.Contract = some inst ∧
      s1.TransactOpts = session.TransactOpts ∧
      s1.CallOpts = session.CallOpts ∧
      w1.myenv =
        some (mapSet (ext.dotenvRead w.envFile).1 "CONTRACTADDR" (addrHex ext addr)) ∧
      mapGet w1.myenv "CONTRACTADDR" = addrHex ext addr ∧
      addrHex ext addr ≠ "" ∧
      (∀ k, k ≠ "CONTRACTADDR" →
        mapLookup w1.myenv k = (ext.dotenvRead w.envFile).1.lookup k) ∧
      (w.myenv = some (ext.dotenvRead w.envFile).1 →
        ∀ k, k ≠ "CONTRACTADDR" → mapLookup w1.myenv k = mapLookup w.myenv k) ∧
      (∃ m1, w1.myenv = some m1 ∧ w1.envFile = (ext.dotenvWrite m1 w.envFile).1) ∧
      Event.out ("Contract deployed! Wait for tx " ++ tx.hashHex ++ " to be confirmed.\n")
        ∈ w1.trace := by
  obtain ⟨w1, hrun, hmy, hfile, hout⟩ :=
    NewContract_ok ext session client question answer w addr tx inst c1 hdeploy
  refine ⟨_, w1, hrun, rfl, rfl, rfl, hmy, ?_, addrHex_ne_empty ext addr, ?_, ?_,
    ⟨_, hmy, hfile⟩, hout⟩
  · rw [hmy, mapGet_mapSet_self]
  · intro k hk
    rw [hmy]
    exact lookup_mapSet_other _ _ _ _ hk
  · intro hsync k hk
    rw [hmy, hsync]
    exact lookup_mapSet_other _ _ _ _ hk

theorem NewContract_success_witness :
    ∃ s1 w1, NewContract demoExt demoSession ⟨1⟩ "2+2?" "4" demoLoaded = .ok s1 w1 ∧
      s1.Contract = some ⟨1⟩ ∧
      s1.TransactOpts = demoSession.TransactOpts ∧
      s1.CallOpts = demoSession.CallOpts ∧
      w1.myenv = some (mapSet (demoExt.dotenvRead demoLoaded.envFile).1 "CONTRACTADDR"
        (addrHex demoExt ⟨42⟩)) ∧
      mapGet w1.myenv "CONTRACTADDR" = addrHex demoExt ⟨42⟩ ∧
      addrHex demoExt ⟨42⟩ ≠ "" ∧
      (∀ k, k ≠ "CONTRACTADDR" →
        mapLookup w1.myenv k = (demoExt.dotenvRead demoLoaded.envFile).1.lookup k) ∧
      (demoLoaded.myenv = some (demoExt.dotenvRead demoLoaded.envFile).1 →
        ∀ k, k ≠ "CONTRACTADDR" → mapLookup w1.myenv k = mapLookup demoLoaded.myenv k) ∧
      (∃ m1, w1.myenv = some m1 ∧
        w1.envFile = (demoExt.dotenvWrite m1 demoLoaded.envFile).1) ∧
      Event.out ("Contract deployed! Wait for tx " ++ "0xabc" ++ " to be confirmed.\n")
        ∈ w1.trace :=
  NewContract_success demoExt demoSession ⟨1⟩ "2+2?" "4" demoLoaded ⟨42⟩ ⟨"0xabc"⟩ ⟨1⟩ 1 rfl

/-- C9. The string `readStringStdin` returns never holds a newline; and when standard
input delivers, in any number of reads, a line `s` followed by a newline, the line free
of newlines, `readStringStdin` returns exactly `s` (nothing else, such as a trailing
carriage return, is removed), logs nothing, and leaves what later reads deliver. -/
theorem readStringStdin_strips_newline (w : World C F) :
    '\n' ∉ (readStringStdin w).1.data ∧
    ∀ (chunks : List String) (last tail : String) (rest : List ReadEv),
      (∀ c ∈ chunks, c.data ≠ [] ∧ '\n' ∉ c.data) → '\n' ∉ last.data →
      w.stdin = chunks.map ReadEv.data ++ ReadEv.data (last ++ "\n" ++ tail) :: rest →
      readStringStdin w =
        (String.mk ((chunks.map String.data).flatten ++ last.data), { w with stdin := rest }) := by
  constructor
  · rcases readStringStdin_cases w with ⟨err, _, h⟩ | ⟨pre, hpre, _, h⟩
    · rw [h]
      simp
    · rw [h]
      exact hpre
  · intro chunks last tail rest hch hlast hin
    have hrs := ReadString_chunks '\n' chunks last.data tail.data rest [] hch hlast
    have hstr : last ++ "\n" ++ tail = String.mk (last.data ++ '\n' :: tail.data) := by
      apply String.ext
      have hd : ("\n" : String).data = ['\n'] := rfl
      simp [String.data_append, hd]
    unfold readStringStdin
    rw [hin, hstr, hrs]
    simp only [List.nil_append]
    rw [TrimSuffix_newline]

theorem readStringStdin_strips_newline_witness :
    readStringStdin { demoWorld with stdin := [.data "4", .data "\r\n3\n", .data "1\n"] } =
      (String.mk ((["4"].map String.data).flatten ++ "\r".data),
        { demoWorld with stdin := [.data "1\n"] }) :=
  (readStringStdin_strips_newline
      { demoWorld with stdin := [.data "4", .data "\r\n3\n", .data "1\n"] }).2
    ["4"] "\r" "3\n" [.data "1\n"] (by decide) (by decide) rfl

/-- C10, as the code has it. A failed read is treated as an empty line and never ends the
loop: whenever `ReadString` reports an error, whatever bytes it had collected,
`readStringStdin` returns the empty string.  When the failed read is the read of the menu
choice, the pass logs the error, prints the invalid-option message, calls nothing on the
contract, changes neither chain nor configuration and stays in the loop.  When it is the
read of the answer after choice `2`, the pass logs the error, hashes the empty string,
submits it in one `SendAnswer` call and stays in the loop.  A pass ends the loop exactly
when the choice read returned the line `4` with its newline and no error; and on an input
with no newline left the loop never ends, however many passes it makes. -/
theorem read_error_is_empty_line (ext : Ext C F) (session : QuizSession) (w : World C F) :
    (∀ err, (ReadString '\n' w.stdin []).1.2 = some err →
      (readStringStdin w).1 = "" ∧
      menuStep ext session w =
        (.next, { w with
          stdin := (ReadString '\n' w.stdin []).2
          trace := w.trace ++ [.out menuText, .log ("invalid option: " ++ err),
            .out "Invalid option. Please try again.\n"] }) ∧
      calls (menuStep ext session w).2.trace = calls w.trace) ∧
    (∀ err, (choiceRead w).1 = "2" →
      (ReadString '\n' (choiceRead w).2.stdin []).1.2 = some err →
      (answerRead w).1 = "" ∧
      menuStep ext session w =
        (.next, sendAnswer ext session ""
          (({ (choiceRead w).2.emit (.out "Type in your answer\n") with
            stdin := (ReadString '\n' (choiceRead w).2.stdin []).2 } : World C F).emit
          (.log ("invalid option: " ++ err)))) ∧
      calls (menuStep ext session w).2.trace =
        calls w.trace ++ [.sendAnswer session (stringToKeccak256 ext "")]) ∧
    ((menuStep ext session w).1 = .done ↔ (ReadString '\n' w.stdin []).1 = ("4\n", none)) ∧
    (noNewline w.stdin →
      (∃ err, (ReadString '\n' w.stdin []).1.2 = some err) ∧
      ∀ fuel, (mainLoop ext session fuel w).1 = .next ∧
        calls (mainLoop ext session fuel w).2.trace = calls w.trace) := by
  refine ⟨?_, ?_, ?_, ?_⟩
  · intro err herr
    have hstep := menuStep_read_error ext session w err herr
    refine ⟨?_, hstep, ?_⟩
    · unfold readStringStdin
      simp [herr]
    · rw [hstep]
      simp [calls, Event.isCall]
  · intro err hchoice herr
    obtain ⟨ha, hm, hc⟩ := menuStep_answer_read_error ext session w err hchoice herr
    exact ⟨by rw [ha], hm, hc⟩
  · rw [menuStep_done_iff, choice_four_iff]
  · intro hno
    exact ⟨(ReadString_noNewline w.stdin [] hno).1, fun fuel =>
      mainLoop_noNewline ext session fuel w hno⟩

theorem read_error_is_empty_line_witness :
    (ReadString '\n' [.data "4"] []).1 = ("4", some "EOF") ∧
    (readStringStdin { demoWorld with stdin := [.data "4"] }).1 = "" ∧
    (menuStep demoExt demoSession { demoWorld with stdin := [.data "4"] }).1 = .next ∧
    calls (menuStep demoExt demoSession { demoWorld with stdin := [.data "4"] }).2.trace = [] ∧
    calls (menuStep demoExt demoSession
        { demoWorld with stdin := [.data "2\n", .data "4"] }).2.trace =
      [.sendAnswer demoSession (stringToKeccak256 demoExt "")] ∧
    ∀ fuel, (mainLoop demoExt demoSession fuel { demoWorld with stdin := [.data "4"] }).1
      = .next :=
  ⟨rfl,
   ((read_error_is_empty_line demoExt demoSession
      { demoWorld with stdin := [.data "4"] }).1 "EOF" rfl).1,
   congrArg Prod.fst ((read_error_is_empty_line demoExt demoSession
      { demoWorld with stdin := [.data "4"] }).1 "EOF" rfl).2.1,
   ((read_error_is_empty_line demoExt demoSession
      { demoWorld with stdin := [.data "4"] }).1 "EOF" rfl).2.2,
   ((read_error_is_empty_line demoExt demoSession
      { demoWorld with stdin := [.data "2\n", .data "4"] }).2.1 "EOF" (by decide) rfl).2.2,
   fun fuel => (((read_error_is_empty_line demoExt demoSession
      { demoWorld with stdin := [.data "4"] }).2.2.2 (by
        intro s hs
        simp at hs
        subst hs
        decide)).2 fuel).1⟩

/-- C10 fails as stated: choice `2` followed by the unterminated line `4` and the end of
input.  The read of the answer fails with `4` already read, yet the pass does not take the
invalid-option branch: it makes a `SendAnswer` call with the digest of the empty string
and never prints the invalid-option message. -/
theorem failed_answer_read_makes_remote_call :
    (ReadString '\n'
      (choiceRead ({ demoWorld with stdin := [.data "2\n", .data "4"] } :
        World Nat (Option Env))).2.stdin []).1 = ("4", some "EOF") ∧
    calls (menuStep demoExt demoSession
        { demoWorld with stdin := [.data "2\n", .data "4"] }).2.trace =
      [.sendAnswer demoSession (stringToKeccak256 demoExt "")] ∧
    calls (menuStep demoExt demoSession
        { demoWorld with stdin := [.data "2\n", .data "4"] }).2.trace ≠
      calls ({ demoWorld with stdin := [.data "2\n", .data "4"] } :
        World Nat (Option Env)).trace ∧
    Event.out "Invalid option. Please try again.\n" ∉
      (menuStep demoExt demoSession
        { demoWorld with stdin := [.data "2\n", .data "4"] }).2.trace := by
  have h := menuStep_answer_read_error demoExt demoSession
    { demoWorld with stdin := [.data "2\n", .data "4"] } "EOF" (by decide) rfl
  refine ⟨rfl, h.2.2, ?_, ?_⟩
  · rw [h.2.2]
    simp [calls, demoWorld]
  · decide

/-! ## Further properties -/

/-- When the choice read is `2` and the read of the answer fails, the pass still submits:
its one call on the contract is `SendAnswer` with the digest of the empty string, and the
loop goes on.  This is what happens when both lines reach the process in a single `Read`,
the first reader having kept the second line in its buffer. -/
theorem failed_answer_read_sends_empty_digest (ext : Ext C F) (session : QuizSession)
    (w : World C F) (err : Err) (hchoice : (choiceRead w).1 = "2")
    (herr : (ReadString '\n' (choiceRead w).2.stdin []).1.2 = some err) :
    (menuStep ext session w).1 = .next ∧
    calls (menuStep ext session w).2.trace =
      calls w.trace ++ [.sendAnswer session (stringToKeccak256 ext "")] := by
  obtain ⟨_, hm, hc⟩ := menuStep_answer_read_error ext session w err hchoice herr
  exact ⟨by rw [hm], hc⟩

theorem failed_answer_read_sends_empty_digest_witness :
    (menuStep demoExt demoSession { demoWorld with stdin := [.data "2\n4\n"] }).1 = .next ∧
    calls (menuStep demoExt demoSession { demoWorld with stdin := [.data "2\n4\n"] }).2.trace =
      calls ({ demoWorld with stdin := [.data "2\n4\n"] } : World Nat (Option Env)).trace
        ++ [.sendAnswer demoSession (stringToKeccak256 demoExt "")] :=
  failed_answer_read_sends_empty_digest demoExt demoSession
    { demoWorld with stdin := [.data "2\n4\n"] } "EOF" (by decide) rfl

/-- Before the first `loadEnv` the global `myenv` is the nil map, and `updateEnvFile`
panics on its assignment `myenv[k] = val`: nothing is written and nothing is logged. -/
theorem updateEnvFile_nil_map_panics (ext : Ext C F) (k v : String) (w : World C F)
    (hnil : w.myenv = none) : updateEnvFile ext k v w = .panic w := by
  unfold updateEnvFile
  rw [hnil]

theorem updateEnvFile_nil_map_panics_witness :
    updateEnvFile demoExt "CONTRACTADDR" "0x2A" demoWorld = .panic demoWorld :=
  updateEnvFile_nil_map_panics demoExt "CONTRACTADDR" "0x2A" demoWorld rfl

end Godapp
